import Mathlib

/-!
Verification of the pm-guardian-api access-control core.

The definitions below are a shallow embedding of the Python source:
  - `OperationEnum` embeds `app/models/permission.py` (class OperationEnum).
  - The entity structures embed the SQLAlchemy models in `app/models/`
    (timestamp columns, which no modelled operation reads, are omitted).
  - `Store` is the relational store: one list of rows per table.
  - `check_access` embeds `app/utils.py` (`check_access`), whose step
    sequence is textually identical to the one inlined in
    `app/resources/check_access.py` (`CheckAccessResource.post`).
  - `checkAccessResourcePost` embeds `CheckAccessResource.post` itself,
    including the missing-input rejection and the response-body shapes.
Machine detail: SQLAlchemy `query.filter(...).all()` is list filtering in
row order, `query.filter(...).first()` is `List.find?`, `.in_` is list
membership; `OperationEnum(operation)` raising `ValueError` is
`OperationEnum.ofString?` returning `none`.
-/

/-- Embeds `OperationEnum` from `app/models/permission.py`:
the closed enumeration of operations {create, read, update, delete}. -/
inductive OperationEnum where
  | create
  | read
  | update
  | delete
deriving DecidableEq, Repr, BEq

instance : LawfulBEq OperationEnum where
  eq_of_beq := by intro a b h; cases a <;> cases b <;> first | rfl | exact absurd h (by decide)
  rfl := by intro a; cases a <;> rfl

/-- Embeds the `OperationEnum(operation)` constructor call: mapping the wire
string to the enumeration value, failing (ValueError) on anything else. -/
def OperationEnum.ofString? (s : String) : Option OperationEnum :=
  if s == "create" then some .create
  else if s == "read" then some .read
  else if s == "update" then some .update
  else if s == "delete" then some .delete
  else none

/-- The four values of the enumeration, in declaration order. -/
def OperationEnum.all : List OperationEnum := [.create, .read, .update, .delete]

/-- Embeds the `Resource` model (`app/models/resource.py`): id (primary key),
name, description, company_id (nullable=False), with the unique constraint
uq_resource_name_company on (name, company_id). -/
structure GResource where
  id : String
  name : String
  description : Option String
  company_id : String
deriving DecidableEq, Repr

/-- Embeds the `Permission` model (`app/models/permission.py`): id, company_id,
operation, resource_id (foreign key to resources.id), with the unique
constraint uq_permission_company_resource_operation on
(company_id, resource_id, operation). -/
structure GPermission where
  id : String
  company_id : String
  operation : OperationEnum
  resource_id : String
deriving DecidableEq, Repr

/-- Embeds the `Policy` model (`app/models/policy.py`): id, name, with the
unique constraint uq_policy_name on name. -/
structure GPolicy where
  id : String
  name : String
deriving DecidableEq, Repr

/-- Embeds the `PolicyPermission` model (`app/models/policy_permission.py`):
id, policy_id (foreign key to policies.id), permission_id (foreign key to
permissions.id); no uniqueness constraint beyond the primary key. -/
structure GPolicyPermission where
  id : String
  policy_id : String
  permission_id : String
deriving DecidableEq, Repr

/-- Embeds the `Role` model (`app/models/role.py`): id, name (unique),
description, company_id. The column is declared nullable=False, but the
specification (section 3) and the seeding contract treat company_id as
nullable (null marks the global superadmin role), and the test suite creates
roles with a null company_id; it is therefore embedded as an Option. -/
structure GRole where
  id : String
  name : String
  description : Option String
  company_id : Option String
deriving DecidableEq, Repr

/-- Embeds the `RolePolicy` model (`app/models/role_policy.py`): id, role_id
(foreign key to roles.id), policy_id (foreign key to policies.id). -/
structure GRolePolicy where
  id : String
  role_id : String
  policy_id : String
deriving DecidableEq, Repr

/-- Embeds the `UserRole` model (`app/models/user_role.py`): id, user_id,
role_id (foreign key to roles.id), company_id, with the unique constraint
uq_user_role on (user_id, role_id, company_id). -/
structure GUserRole where
  id : String
  user_id : String
  role_id : String
  company_id : String
deriving DecidableEq, Repr

/-- The relational store: one list of rows per table, in row order. -/
structure Store where
  resources : List GResource
  permissions : List GPermission
  policies : List GPolicy
  policy_permissions : List GPolicyPermission
  roles : List GRole
  role_policies : List GRolePolicy
  user_roles : List GUserRole
deriving DecidableEq, Repr

/-- The decision triple returned by `check_access` in `app/utils.py`:
(access_granted, reason, status_code). -/
structure Decision where
  access_granted : Bool
  reason : String
  status : Nat
deriving DecidableEq, Repr

/-- Embeds `Resource.query.filter_by(name=resource_name).first()`
(step 1 of `check_access`): first stored resource with the given name. -/
def findResource (s : Store) (resource_name : String) : Option GResource :=
  s.resources.find? (fun r => r.name == resource_name)

/-- Embeds `UserRole.query.filter_by(user_id=user_id).all()`
(step 3 of `check_access`). -/
def userRolesFor (s : Store) (user_id : String) : List GUserRole :=
  s.user_roles.filter (fun ur => ur.user_id == user_id)

/-- Embeds `RolePolicy.query.filter(RolePolicy.role_id.in_(role_ids)).all()`
(step 4 of `check_access`). -/
def rolePoliciesFor (s : Store) (role_ids : List String) : List GRolePolicy :=
  s.role_policies.filter (fun rp => role_ids.contains rp.role_id)

/-- Embeds `PolicyPermission.query.filter(
PolicyPermission.policy_id.in_(policy_ids)).all()` (step 5 of
`check_access`). -/
def policyPermissionsFor (s : Store) (policy_ids : List String) : List GPolicyPermission :=
  s.policy_permissions.filter (fun pp => policy_ids.contains pp.policy_id)

/-- Embeds the final query of `check_access` (step 6): first Permission whose
id is among permission_ids, whose resource_id is the resolved resource id,
and whose operation is the parsed operation. -/
def findMatchingPermission (s : Store) (permission_ids : List String)
    (rid : String) (opE : OperationEnum) : Option GPermission :=
  s.permissions.find? (fun p =>
    permission_ids.contains p.id && p.resource_id == rid && p.operation == opE)

/-- The list `role_ids = [ur.role_id for ur in user_roles]` of
`check_access`. -/
def roleIds (s : Store) (user_id : String) : List String :=
  (userRolesFor s user_id).map (fun ur => ur.role_id)

/-- The list `policy_ids = [rp.policy_id for rp in role_policies]` of
`check_access`. -/
def policyIds (s : Store) (user_id : String) : List String :=
  (rolePoliciesFor s (roleIds s user_id)).map (fun rp => rp.policy_id)

/-- The list `permission_ids = [pp.permission_id for pp in
policy_permissions]` of `check_access`: the union, across all the roles of
the user and all their policies, of linked permission ids. -/
def permissionIds (s : Store) (user_id : String) : List String :=
  (policyPermissionsFor s (policyIds s user_id)).map (fun pp => pp.permission_id)

/-- Embeds `check_access` from `app/utils.py` (the same ordered check
sequence is inlined in `CheckAccessResource.post`); the intermediate lists
of the Python code are the named definitions above. -/
def check_access (s : Store) (user_id resource_name operation : String) : Decision :=
  match findResource s resource_name with
  | none =>
      ⟨false, "Resource \x27" ++ resource_name ++ "\x27 not found.", 404⟩
  | some resource =>
    match OperationEnum.ofString? operation with
    | none =>
        ⟨false, "Operation \x27" ++ operation ++ "\x27 is invalid.", 400⟩
    | some op_enum =>
      if (userRolesFor s user_id).isEmpty then
        ⟨false, "User has no roles assigned.", 403⟩
      else if (rolePoliciesFor s (roleIds s user_id)).isEmpty then
        ⟨false, "User\x27s roles have no policies assigned.", 403⟩
      else if (policyPermissionsFor s (policyIds s user_id)).isEmpty then
        ⟨false, "Policies have no permissions assigned.", 403⟩
      else
        match findMatchingPermission s (permissionIds s user_id) resource.id op_enum with
        | some _ => ⟨true, "Access granted by user role and policy.", 200⟩
        | none => ⟨false, "No matching permission found for user roles.", 403⟩

/-- Response body shapes of `CheckAccessResource.post`: either the
{access_granted, reason} object or an {error} object. -/
inductive Body where
  | access (access_granted : Bool) (reason : String)
  | errorMsg (msg : String)
deriving DecidableEq, Repr

/-- Embeds the Python truthiness test `not x` on a JSON string field:
true when the field is absent (None) or the empty string. -/
def jsonMissing : Option String → Bool
  | none => true
  | some s => s.isEmpty

/-- Embeds `CheckAccessResource.post` from `app/resources/check_access.py`:
the missing-input rejection followed by the same check sequence as
`check_access`, rendered into the response-body shapes. -/
def checkAccessResourcePost (s : Store)
    (user_id resource_name operation : Option String) : Body × Nat :=
  if jsonMissing user_id || jsonMissing resource_name || jsonMissing operation then
    (Body.errorMsg "Missing user_id, resource, or operation.", 400)
  else
    let d := check_access s (user_id.getD "") (resource_name.getD "") (operation.getD "")
    (Body.access d.access_granted d.reason, d.status)

/-- A demonstration resource row (the §8 scenario A shape). -/
def demoResource : GResource := ⟨"res-1", "project", none, "co-1"⟩

/-- A demonstration store: one user with one role, one policy, and one
read permission on the resource named project. -/
def demoStore : Store :=
  ⟨[demoResource],
   [⟨"perm-1", "co-1", .read, "res-1"⟩],
   [⟨"pol-1", "editor-policy"⟩],
   [⟨"pp-1", "pol-1", "perm-1"⟩],
   [⟨"role-1", "editor", none, some "co-1"⟩],
   [⟨"rp-1", "role-1", "pol-1"⟩],
   [⟨"ur-1", "user-1", "role-1", "co-1"⟩]⟩

/-- Written from the specification wording (§4.1) for the refinement claim:
the ordered list of short-circuiting checks, each paired with the response
it alone determines — input presence, resource existence, operation
validity, role emptiness, policy emptiness, permission-link emptiness. -/
def specCheckList (s : Store)
    (user_id resource_name operation : Option String) : List (Bool × (Body × Nat)) :=
  let uid := user_id.getD ""
  let rname := resource_name.getD ""
  let op := operation.getD ""
  [ (jsonMissing user_id || jsonMissing resource_name || jsonMissing operation,
      (Body.errorMsg "Missing user_id, resource, or operation.", 400)),
    ((findResource s rname).isNone,
      (Body.access false ("Resource \x27" ++ rname ++ "\x27 not found."), 404)),
    ((OperationEnum.ofString? op).isNone,
      (Body.access false ("Operation \x27" ++ op ++ "\x27 is invalid."), 400)),
    ((userRolesFor s uid).isEmpty,
      (Body.access false "User has no roles assigned.", 403)),
    ((rolePoliciesFor s (roleIds s uid)).isEmpty,
      (Body.access false "User\x27s roles have no policies assigned.", 403)),
    ((policyPermissionsFor s (policyIds s uid)).isEmpty,
      (Body.access false "Policies have no permissions assigned.", 403)) ]

/-- Written from the specification wording (§4.1): the first failing check
in the enumerated order alone determines the response; when every check
passes, the response is determined by the final permission search. -/
def resolveSpecOrdered (s : Store)
    (user_id resource_name operation : Option String) : Body × Nat :=
  let uid := user_id.getD ""
  let rname := resource_name.getD ""
  let op := operation.getD ""
  match (specCheckList s user_id resource_name operation).find? (fun c => c.1) with
  | some c => c.2
  | none =>
    match findResource s rname, OperationEnum.ofString? op with
    | some r, some opE =>
        if (findMatchingPermission s (permissionIds s uid) r.id opE).isSome then
          (Body.access true "Access granted by user role and policy.", 200)
        else
          (Body.access false "No matching permission found for user roles.", 403)
    | _, _ => (Body.errorMsg "unreachable", 0)

/-- Failure behaviour of the store: one flag per query issued by
`check_access`, set when that query raises (SQLAlchemy error). -/
structure QueryFails where
  resourceQ : Bool
  userRoleQ : Bool
  rolePolicyQ : Bool
  policyPermissionQ : Bool
  permissionQ : Bool
deriving DecidableEq, Repr

/-- The body of the `try` block of `check_access` run against a store that
may fail at each query: identical to `check_access`, except that each query
step first consults the failure behaviour and raises (`Except.error`) when
the store fails there. -/
def check_access_run (s : Store) (f : QueryFails)
    (user_id resource_name operation : String) : Except Unit Decision :=
  if f.resourceQ then .error () else
  match findResource s resource_name with
  | none =>
      .ok ⟨false, "Resource \x27" ++ resource_name ++ "\x27 not found.", 404⟩
  | some resource =>
    match OperationEnum.ofString? operation with
    | none =>
        .ok ⟨false, "Operation \x27" ++ operation ++ "\x27 is invalid.", 400⟩
    | some op_enum =>
      if f.userRoleQ then .error () else
      if (userRolesFor s user_id).isEmpty then
        .ok ⟨false, "User has no roles assigned.", 403⟩
      else if f.rolePolicyQ then .error () else
      if (rolePoliciesFor s (roleIds s user_id)).isEmpty then
        .ok ⟨false, "User\x27s roles have no policies assigned.", 403⟩
      else if f.policyPermissionQ then .error () else
      if (policyPermissionsFor s (policyIds s user_id)).isEmpty then
        .ok ⟨false, "Policies have no permissions assigned.", 403⟩
      else if f.permissionQ then .error () else
      match findMatchingPermission s (permissionIds s user_id) resource.id op_enum with
      | some _ => .ok ⟨true, "Access granted by user role and policy.", 200⟩
      | none => .ok ⟨false, "No matching permission found for user roles.", 403⟩

/-- Embeds the `try ... except Exception` boundary of `check_access`: any
raised store failure is converted into the generic 500 decision. -/
def check_access_caught (s : Store) (f : QueryFails)
    (user_id resource_name operation : String) : Decision :=
  match check_access_run s f user_id resource_name operation with
  | .ok d => d
  | .error _ => ⟨false, "An unexpected error occurred.", 500⟩

/-- Whether a response body has the {access_granted, reason} shape. -/
def Body.isAccessShape : Body → Bool
  | .access _ _ => true
  | .errorMsg _ => false

/-- Adding one PolicyPermission row to the store, all else unchanged. -/
def addPolicyPermission (s : Store) (pp : GPolicyPermission) : Store :=
  { s with policy_permissions := s.policy_permissions ++ [pp] }

/-- The demonstration store with the policy-to-permission link removed:
the request is then forbidden with the no-matching-permission reason. -/
def demoStoreNoLink : Store :=
  ⟨[demoResource],
   [⟨"perm-1", "co-1", .read, "res-1"⟩],
   [⟨"pol-1", "editor-policy"⟩],
   [⟨"pp-0", "pol-1", "perm-0"⟩],
   [⟨"role-1", "editor", none, some "co-1"⟩],
   [⟨"rp-1", "role-1", "pol-1"⟩],
   [⟨"ur-1", "user-1", "role-1", "co-1"⟩]⟩

/-- Two resource rows equal on every field the resolver reads (everything
but company_id). -/
def resBlind (a b : GResource) : Bool :=
  a.id == b.id && a.name == b.name && a.description == b.description

/-- Two permission rows equal on every field the resolver reads (everything
but company_id). -/
def permBlind (a b : GPermission) : Bool :=
  a.id == b.id && a.operation == b.operation && a.resource_id == b.resource_id

/-- Two role rows equal on every field but company_id. -/
def roleBlind (a b : GRole) : Bool :=
  a.id == b.id && a.name == b.name && a.description == b.description

/-- Two user-role rows equal on every field the resolver reads (everything
but company_id). -/
def urBlind (a b : GUserRole) : Bool :=
  a.id == b.id && a.user_id == b.user_id && a.role_id == b.role_id

/-- Rows of two tables paired up under a row relation. -/
def listBlind {α : Type} (f : α → α → Bool) : List α → List α → Bool
  | [], [] => true
  | a :: as, b :: bs => f a b && listBlind f as bs
  | _, _ => false

/-- Two stores that differ only in the company_id fields of Resource,
Permission, Role and UserRoleAssignment rows (the tables without a
company_id column are equal). -/
def storeBlind (s1 s2 : Store) : Prop :=
  listBlind resBlind s1.resources s2.resources = true
  ∧ listBlind permBlind s1.permissions s2.permissions = true
  ∧ s1.policies = s2.policies
  ∧ s1.policy_permissions = s2.policy_permissions
  ∧ listBlind roleBlind s1.roles s2.roles = true
  ∧ s1.role_policies = s2.role_policies
  ∧ listBlind urBlind s1.user_roles s2.user_roles = true

instance (s1 s2 : Store) : Decidable (storeBlind s1 s2) := by
  unfold storeBlind
  infer_instance

/-- The demonstration store with every company_id changed. -/
def demoStoreRetagged : Store :=
  ⟨[⟨"res-1", "project", none, "co-9"⟩],
   [⟨"perm-1", "co-8", .read, "res-1"⟩],
   [⟨"pol-1", "editor-policy"⟩],
   [⟨"pp-1", "pol-1", "perm-1"⟩],
   [⟨"role-1", "editor", none, none⟩],
   [⟨"rp-1", "role-1", "pol-1"⟩],
   [⟨"ur-1", "user-1", "role-1", "co-7"⟩]⟩

/-- One entry of the canonical resource catalog (`RESOURCES` in
`app/resources_list.py`): a name and a description. -/
structure CatalogEntry where
  name : String
  description : String
deriving DecidableEq, Repr

/-- The stored resource names (step 1 of §4.2 reconciliation). -/
def storedNames (s : Store) : List String :=
  s.resources.map (fun r => r.name)

/-- The canonical catalog names (step 2 of §4.2 reconciliation). -/
def catalogNames (catalog : List CatalogEntry) : List String :=
  catalog.map (fun c => c.name)

/-- The rows inserted by reconciliation: a fresh Resource for each canonical
entry whose name is absent from the store (step 3 of §4.2). -/
def insertedRows (s : Store) (catalog : List CatalogEntry)
    (freshId : String → String) : List GResource :=
  (catalog.filter (fun c => !((storedNames s).contains c.name))).map
    (fun c => ⟨freshId c.name, c.name, some c.description, ""⟩)

/-- The rows deleted by reconciliation: each stored Resource whose name is
absent from the catalog (step 4 of §4.2). -/
def deletedRows (s : Store) (catalog : List CatalogEntry) : List GResource :=
  s.resources.filter (fun r => !((catalogNames catalog).contains r.name))

/-- The stored rows reconciliation keeps: those whose name the catalog
still lists. -/
def keptRows (s : Store) (catalog : List CatalogEntry) : List GResource :=
  s.resources.filter (fun r => (catalogNames catalog).contains r.name)

/-- Modelled from the spec: `sync_resources` is imported from
`app.models.resource` and called in `create_app` (`app/__init__.py` lines
30 and 201), but its body is absent from the provided source tree, so it is
modelled from §4.2 — load the stored resource names and the canonical
catalog names, insert a new Resource (with a freshly generated identifier)
for each canonical name absent from the store, and delete each stored
Resource whose name is absent from the catalog (with the cascading
Permission deletion that §4.2 assigns to the store). Returns the new store
together with the inserted and the deleted rows. -/
def reconcile (s : Store) (catalog : List CatalogEntry)
    (freshId : String → String) : Store × List GResource × List GResource :=
  ({ s with
      resources := keptRows s catalog ++ insertedRows s catalog freshId,
      permissions := s.permissions.filter
        (fun p =>
          !(((deletedRows s catalog).map (fun r => r.id)).contains p.resource_id)) },
    insertedRows s catalog freshId, deletedRows s catalog)

/-- The global superadmin role created by seeding: name "superadmin",
company_id null (§4.3 step 1). -/
def superadminRole (rid : String) : GRole :=
  ⟨rid, "superadmin", none, none⟩

/-- Whether some Permission row exists for the (resource, operation) pair
(§4.3 step 2 existence test). -/
def hasPermFor (perms : List GPermission) (rid : String) (op : OperationEnum) : Bool :=
  perms.any (fun p => p.resource_id == rid && p.operation == op)

/-- Every (resource id, operation) pair over the stored resources and the
Operation enumeration (§4.3 step 2 iteration space). -/
def resourceOpPairs (resources : List GResource) : List (String × OperationEnum) :=
  resources.flatMap (fun r => OperationEnum.all.map (fun op => (r.id, op)))

/-- The (resource, operation) pairs for which no Permission row exists yet. -/
def missingPairs (s : Store) : List (String × OperationEnum) :=
  (resourceOpPairs s.resources).filter
    (fun pr => !(hasPermFor s.permissions pr.1 pr.2))

/-- Modelled from the spec: `ensure_superadmin_role` is imported from
`app.models.role` and called in `create_app` (`app/__init__.py` lines 31
and 203) and in the tests, but its body is absent from the provided source
tree, so it is modelled from §4.3 — create the Role named "superadmin"
with a null company_id when no such role exists, then for every stored
Resource and every Operation value create the Permission row for that
(resource, operation) pair when it is missing. Returns the new store
together with the created Role and Permission rows. -/
def ensure_superadmin (s : Store) (freshRoleId : String)
    (freshPermId : String → OperationEnum → String) :
    Store × List GRole × List GPermission :=
  let newRoles := if s.roles.any (fun r => r.name == "superadmin") then []
                  else [superadminRole freshRoleId]
  let newPerms := (missingPairs s).map
    (fun pr => (⟨freshPermId pr.1 pr.2, "", pr.2, pr.1⟩ : GPermission))
  ({ s with
      roles := s.roles ++ newRoles,
      permissions := s.permissions ++ newPerms },
    newRoles, newPerms)

/-- The §3 Permission invariant, as a pairwise property: no two rows share
both resource_id and operation. -/
def permPairUnique (perms : List GPermission) : Prop :=
  List.Pairwise (fun p q => p.resource_id ≠ q.resource_id ∨ p.operation ≠ q.operation)
    perms

/-- Embeds `ResourceResource.delete` from `app/resources/resource.py`: look
the Resource up by primary key, answer 404 when absent, otherwise delete
that row and commit (204). The handler performs no cascade, the
Permission.resource_id foreign key declares no ondelete action, and no ORM
cascade relationship exists anywhere in the models, so the Permission
table is untouched. -/
def resourceResourceDelete (s : Store) (resource_id : String) : Store × Nat :=
  match s.resources.find? (fun r => r.id == resource_id) with
  | none => (s, 404)
  | some _ =>
      ({ s with resources := s.resources.filter (fun r => !(r.id == resource_id)) },
        204)

/-- The conflict test of the unique constraint
uq_permission_company_resource_operation (`app/models/permission.py`):
an insert conflicts when an existing row matches on company_id,
resource_id and operation together. -/
def permissionInsertConflict (perms : List GPermission) (p : GPermission) : Bool :=
  perms.any (fun q => q.company_id == p.company_id &&
    q.resource_id == p.resource_id && q.operation == p.operation)

/-- Embeds `PermissionListResource.post` (`app/resources/permission.py`):
commit the new row (201), or roll back and answer 409 when the unique
constraint surfaces as an IntegrityError. -/
def permissionPost (perms : List GPermission) (p : GPermission) :
    List GPermission × Nat :=
  if permissionInsertConflict perms p then (perms, 409) else (perms ++ [p], 201)

/-- The invariant the store constraint actually enforces: no two Permission
rows share company_id, resource_id and operation all together. -/
def permTripleUnique (perms : List GPermission) : Prop :=
  List.Pairwise (fun p q => p.company_id ≠ q.company_id ∨
    p.resource_id ≠ q.resource_id ∨ p.operation ≠ q.operation) perms

example : OperationEnum.ofString? "read" = some .read := by decide

example : OperationEnum.ofString? "transmogrify" = none := by decide

example :
    check_access ⟨[], [], [], [], [], [], []⟩ "u1" "project" "read" =
      ⟨false, "Resource \x27project\x27 not found.", 404⟩ := by decide

/-- The predicate of the final permission query holds exactly on a
membership-and-equality match. -/
theorem matchPred_iff (ids : List String) (rid : String) (opE : OperationEnum)
    (p : GPermission) :
    (ids.contains p.id && (p.resource_id == rid && p.operation == opE)) = true ↔
      p.id ∈ ids ∧ p.resource_id = rid ∧ p.operation = opE := by
  simp only [Bool.and_eq_true, beq_iff_eq, List.elem_iff]

/-- The final permission query succeeds exactly when some stored permission
matches (id in the union, resolved resource, parsed operation). -/
theorem findMatchingPermission_isSome_iff (s : Store) (ids : List String)
    (rid : String) (opE : OperationEnum) :
    (findMatchingPermission s ids rid opE).isSome = true ↔
      ∃ p ∈ s.permissions,
        p.id ∈ ids ∧ p.resource_id = rid ∧ p.operation = opE := by
  unfold findMatchingPermission
  rw [List.find?_isSome]
  constructor
  · rintro ⟨p, hp, hpred⟩
    exact ⟨p, hp, (matchPred_iff ids rid opE p).1 (by simpa [Bool.and_assoc] using hpred)⟩
  · rintro ⟨p, hp, hpred⟩
    exact ⟨p, hp, by simpa [Bool.and_assoc] using (matchPred_iff ids rid opE p).2 hpred⟩

/-- The final permission query fails exactly when no stored permission
matches. -/
theorem findMatchingPermission_eq_none_iff (s : Store) (ids : List String)
    (rid : String) (opE : OperationEnum) :
    findMatchingPermission s ids rid opE = none ↔
      ¬ ∃ p ∈ s.permissions,
          p.id ∈ ids ∧ p.resource_id = rid ∧ p.operation = opE := by
  rw [← findMatchingPermission_isSome_iff]
  cases hf : findMatchingPermission s ids rid opE <;> simp

/-- C1: when the input passes the earlier checks (resource resolved,
operation parsed, the user has roles, those roles have policies, those
policies have permission links), the decision is the granted 200 outcome
if and only if some stored Permission has its id in the union of
permission ids reachable from any of the user roles, references the
resolved resource, and carries the parsed operation; otherwise the decision
is the forbidden 403 no-matching-permission outcome. A single match
anywhere in the union suffices; there is no precedence between roles or
policies. -/
theorem claim_C1_grant_iff_matching_permission (s : Store)
    (uid rname op : String) (r : GResource) (opE : OperationEnum)
    (hres : findResource s rname = some r)
    (hop : OperationEnum.ofString? op = some opE)
    (hur : (userRolesFor s uid).isEmpty = false)
    (hrp : (rolePoliciesFor s (roleIds s uid)).isEmpty = false)
    (hpp : (policyPermissionsFor s (policyIds s uid)).isEmpty = false) :
    (check_access s uid rname op =
        ⟨true, "Access granted by user role and policy.", 200⟩
      ↔ ∃ p ∈ s.permissions,
          p.id ∈ permissionIds s uid ∧ p.resource_id = r.id ∧ p.operation = opE)
    ∧ ((¬ ∃ p ∈ s.permissions,
          p.id ∈ permissionIds s uid ∧ p.resource_id = r.id ∧ p.operation = opE) →
        check_access s uid rname op =
          ⟨false, "No matching permission found for user roles.", 403⟩) := by
  have hbody : check_access s uid rname op =
      (match findMatchingPermission s (permissionIds s uid) r.id opE with
        | some _ => ⟨true, "Access granted by user role and policy.", 200⟩
        | none => ⟨false, "No matching permission found for user roles.", 403⟩) := by
    unfold check_access
    rw [hres, hop]
    simp [hur, hrp, hpp]
  cases hfind : findMatchingPermission s (permissionIds s uid) r.id opE with
  | some q =>
      have hex : ∃ p ∈ s.permissions,
          p.id ∈ permissionIds s uid ∧ p.resource_id = r.id ∧ p.operation = opE := by
        rw [← findMatchingPermission_isSome_iff, hfind]
        rfl
      rw [hbody, hfind]
      exact ⟨by simp [hex], fun hno => absurd hex hno⟩
  | none =>
      have hno : ¬ ∃ p ∈ s.permissions,
          p.id ∈ permissionIds s uid ∧ p.resource_id = r.id ∧ p.operation = opE :=
        (findMatchingPermission_eq_none_iff s (permissionIds s uid) r.id opE).1 hfind
      rw [hbody, hfind]
      exact ⟨by simp [hno], fun _ => rfl⟩

/-- C1, witnessed at the demonstration store. -/
theorem claim_C1_witness :
    (check_access demoStore "user-1" "project" "read" =
        ⟨true, "Access granted by user role and policy.", 200⟩
      ↔ ∃ p ∈ demoStore.permissions,
          p.id ∈ permissionIds demoStore "user-1" ∧
            p.resource_id = demoResource.id ∧ p.operation = OperationEnum.read)
    ∧ ((¬ ∃ p ∈ demoStore.permissions,
          p.id ∈ permissionIds demoStore "user-1" ∧
            p.resource_id = demoResource.id ∧ p.operation = OperationEnum.read) →
        check_access demoStore "user-1" "project" "read" =
          ⟨false, "No matching permission found for user roles.", 403⟩) :=
  claim_C1_grant_iff_matching_permission demoStore "user-1" "project" "read"
    demoResource OperationEnum.read (by decide) (by decide) (by decide)
    (by decide) (by decide)

/-- C2: the endpoint executes its checks as a short-circuiting sequence in
exactly the enumerated order — input presence, resource existence,
operation validity, role emptiness, policy emptiness, permission-link
emptiness — and the first failing check alone determines the returned
reason and status: the handler coincides with the first-failing-check
reading of the specification on every store and input. In particular
resource existence and operation validity are decided before any role or
policy is consulted. -/
theorem claim_C2_ordered_short_circuit (s : Store)
    (user_id resource_name operation : Option String) :
    checkAccessResourcePost s user_id resource_name operation =
      resolveSpecOrdered s user_id resource_name operation := by
  unfold checkAccessResourcePost resolveSpecOrdered specCheckList
  by_cases hmiss :
      (jsonMissing user_id || jsonMissing resource_name || jsonMissing operation) = true
  · simp [hmiss]
  · have hmiss' :
        (jsonMissing user_id || jsonMissing resource_name || jsonMissing operation) = false :=
      Bool.eq_false_iff.mpr hmiss
    simp only [hmiss', Bool.false_eq_true, if_false, List.find?]
    unfold check_access
    cases hres : findResource s (resource_name.getD "") with
    | none => simp [hres]
    | some r =>
      simp only [hres, Option.isNone_some]
      cases hop : OperationEnum.ofString? (operation.getD "") with
      | none => simp [hop]
      | some opE =>
        simp only [hop, Option.isNone_some]
        by_cases hur : (userRolesFor s (user_id.getD "")).isEmpty = true
        · simp [hur]
        · have hur' := Bool.eq_false_iff.mpr hur
          simp only [hur', Bool.false_eq_true, if_false]
          by_cases hrp : (rolePoliciesFor s (roleIds s (user_id.getD ""))).isEmpty = true
          · simp [hrp]
          · have hrp' := Bool.eq_false_iff.mpr hrp
            simp only [hrp', Bool.false_eq_true, if_false]
            by_cases hpp :
                (policyPermissionsFor s (policyIds s (user_id.getD ""))).isEmpty = true
            · simp [hpp]
            · have hpp' := Bool.eq_false_iff.mpr hpp
              simp only [hpp', Bool.false_eq_true, if_false]
              cases hfind :
                  findMatchingPermission s (permissionIds s (user_id.getD "")) r.id opE with
              | none => simp [hfind]
              | some q => simp [hfind]

/-- C6: for every input and every store failure behaviour the caller
receives a Decision value, and it is either exactly the pure decision (no
partial traversal result) or the generic 500 decision that exposes no
internal detail. -/
theorem claim_C6_no_exception_past_boundary (s : Store) (f : QueryFails)
    (user_id resource_name operation : String) :
    check_access_caught s f user_id resource_name operation =
        check_access s user_id resource_name operation ∨
      check_access_caught s f user_id resource_name operation =
        ⟨false, "An unexpected error occurred.", 500⟩ := by
  obtain ⟨rq, urq, rpq, ppq, pq⟩ := f
  cases rq with
  | true => exact Or.inr rfl
  | false =>
    unfold check_access_caught check_access_run check_access
    cases hres : findResource s resource_name with
    | none => exact Or.inl rfl
    | some r =>
      cases hop : OperationEnum.ofString? operation with
      | none => exact Or.inl rfl
      | some opE =>
        cases urq with
        | true => exact Or.inr (by simp)
        | false =>
          by_cases hur : (userRolesFor s user_id).isEmpty
          · left; simp [hur]
          · simp only [Bool.not_eq_true] at hur
            cases rpq with
            | true => right; simp [hur]
            | false =>
              by_cases hrp : (rolePoliciesFor s (roleIds s user_id)).isEmpty
              · left; simp [hur, hrp]
              · simp only [Bool.not_eq_true] at hrp
                cases ppq with
                | true => right; simp [hur, hrp]
                | false =>
                  by_cases hpp :
                      (policyPermissionsFor s (policyIds s user_id)).isEmpty
                  · left; simp [hur, hrp, hpp]
                  · simp only [Bool.not_eq_true] at hpp
                    cases pq with
                    | true => right; simp [hur, hrp, hpp]
                    | false =>
                      cases hfind : findMatchingPermission s
                          (permissionIds s user_id) r.id opE with
                      | none => left; simp [hur, hrp, hpp, hfind]
                      | some q => left; simp [hur, hrp, hpp, hfind]

/-- C9 fails as stated: the BAD_REQUEST rejection for an empty user_id is a
denial (status 400, not 200) whose body is the {error} object, not the
{access_granted, reason} shape, so not every denial outcome carries a
reason string in that shape. -/
theorem claim_C9_counterexample :
    (checkAccessResourcePost demoStore (some "") (some "project") (some "read")).2 ≠ 200
    ∧ (checkAccessResourcePost demoStore
        (some "") (some "project") (some "read")).1.isAccessShape = false := by
  constructor
  · decide
  · decide

/-- C9 amended: for present, nonempty inputs the endpoint renders the
decision of the check sequence in the {access_granted, reason} shape with
its status, and that decision is exactly one of the seven enumerated
deterministic English (reason, status) outcomes; the missing-input
rejection (and the store-failure path) instead returns an {error} body. -/
theorem claim_C9_amended_reason_contract (s : Store) (uid rname op : String)
    (hu : uid.isEmpty = false) (hr : rname.isEmpty = false)
    (ho : op.isEmpty = false) :
    checkAccessResourcePost s (some uid) (some rname) (some op) =
      (Body.access (check_access s uid rname op).access_granted
          (check_access s uid rname op).reason,
        (check_access s uid rname op).status)
    ∧ (check_access s uid rname op =
          ⟨false, "Resource \x27" ++ rname ++ "\x27 not found.", 404⟩
      ∨ check_access s uid rname op =
          ⟨false, "Operation \x27" ++ op ++ "\x27 is invalid.", 400⟩
      ∨ check_access s uid rname op = ⟨false, "User has no roles assigned.", 403⟩
      ∨ check_access s uid rname op =
          ⟨false, "User\x27s roles have no policies assigned.", 403⟩
      ∨ check_access s uid rname op =
          ⟨false, "Policies have no permissions assigned.", 403⟩
      ∨ check_access s uid rname op =
          ⟨false, "No matching permission found for user roles.", 403⟩
      ∨ check_access s uid rname op =
          ⟨true, "Access granted by user role and policy.", 200⟩) := by
  constructor
  · unfold checkAccessResourcePost
    simp [jsonMissing, hu, hr, ho]
  · unfold check_access
    cases hres : findResource s rname with
    | none => exact Or.inl rfl
    | some r =>
      cases hop : OperationEnum.ofString? op with
      | none => exact Or.inr (Or.inl rfl)
      | some opE =>
        by_cases hur : (userRolesFor s uid).isEmpty
        · simp [hur]
        · simp only [Bool.not_eq_true] at hur
          by_cases hrp : (rolePoliciesFor s (roleIds s uid)).isEmpty
          · simp [hur, hrp]
          · simp only [Bool.not_eq_true] at hrp
            by_cases hpp : (policyPermissionsFor s (policyIds s uid)).isEmpty
            · simp [hur, hrp, hpp]
            · simp only [Bool.not_eq_true] at hpp
              cases hfind : findMatchingPermission s (permissionIds s uid)
                  r.id opE with
              | none => simp [hur, hrp, hpp, hfind]
              | some q => simp [hur, hrp, hpp, hfind]

/-- C9 amended, witnessed at the demonstration store with a valid input. -/
theorem claim_C9_witness :
    checkAccessResourcePost demoStore
        (some "user-1") (some "project") (some "read") =
      (Body.access (check_access demoStore "user-1" "project" "read").access_granted
          (check_access demoStore "user-1" "project" "read").reason,
        (check_access demoStore "user-1" "project" "read").status)
    ∧ (check_access demoStore "user-1" "project" "read" =
          ⟨false, "Resource \x27project\x27 not found.", 404⟩
      ∨ check_access demoStore "user-1" "project" "read" =
          ⟨false, "Operation \x27read\x27 is invalid.", 400⟩
      ∨ check_access demoStore "user-1" "project" "read" =
          ⟨false, "User has no roles assigned.", 403⟩
      ∨ check_access demoStore "user-1" "project" "read" =
          ⟨false, "User\x27s roles have no policies assigned.", 403⟩
      ∨ check_access demoStore "user-1" "project" "read" =
          ⟨false, "Policies have no permissions assigned.", 403⟩
      ∨ check_access demoStore "user-1" "project" "read" =
          ⟨false, "No matching permission found for user roles.", 403⟩
      ∨ check_access demoStore "user-1" "project" "read" =
          ⟨true, "Access granted by user role and policy.", 200⟩) :=
  claim_C9_amended_reason_contract demoStore "user-1" "project" "read"
    (by decide) (by decide) (by decide)

/-- A nonempty list reports isEmpty = false. -/
theorem isEmpty_false_of_mem {α : Type} {l : List α} {a : α} (h : a ∈ l) :
    l.isEmpty = false := by
  cases l with
  | nil => cases h
  | cons b t => rfl

/-- When every check passes and a matching permission exists in the union,
`check_access` returns the granted 200 decision. -/
theorem check_access_eq_granted (s : Store) (uid rname op : String)
    (r : GResource) (opE : OperationEnum)
    (hres : findResource s rname = some r)
    (hop : OperationEnum.ofString? op = some opE)
    (hur : (userRolesFor s uid).isEmpty = false)
    (hrp : (rolePoliciesFor s (roleIds s uid)).isEmpty = false)
    (hpp : (policyPermissionsFor s (policyIds s uid)).isEmpty = false)
    (hex : ∃ p ∈ s.permissions,
        p.id ∈ permissionIds s uid ∧ p.resource_id = r.id ∧ p.operation = opE) :
    check_access s uid rname op =
      ⟨true, "Access granted by user role and policy.", 200⟩ := by
  unfold check_access
  rw [hres, hop]
  simp only [hur, hrp, hpp, Bool.false_eq_true, if_false]
  cases hfind : findMatchingPermission s (permissionIds s uid) r.id opE with
  | some q => rfl
  | none =>
      exact absurd hex
        ((findMatchingPermission_eq_none_iff s (permissionIds s uid) r.id opE).1 hfind)

/-- C5: granting is monotonic. If the store forbids the request, adding a
single PolicyPermission row whose policy is reachable from one of the user
roles and whose permission matches the resolved (resource, operation)
yields a store that grants the request; and no such addition can turn a
prior granted result into a denial. -/
theorem claim_C5_monotonic_grant (s : Store) (pp : GPolicyPermission)
    (uid rname op : String) (r : GResource) (opE : OperationEnum)
    (hres : findResource s rname = some r)
    (hop : OperationEnum.ofString? op = some opE)
    (hreach : ∃ ur ∈ s.user_roles, ur.user_id = uid ∧
        ∃ rp ∈ s.role_policies,
          rp.role_id = ur.role_id ∧ rp.policy_id = pp.policy_id)
    (hmatch : ∃ q ∈ s.permissions, q.id = pp.permission_id ∧
        q.resource_id = r.id ∧ q.operation = opE) :
    ((check_access s uid rname op).status = 403 →
      check_access (addPolicyPermission s pp) uid rname op =
        ⟨true, "Access granted by user role and policy.", 200⟩)
    ∧ (check_access s uid rname op =
          ⟨true, "Access granted by user role and policy.", 200⟩ →
        check_access (addPolicyPermission s pp) uid rname op =
          ⟨true, "Access granted by user role and policy.", 200⟩) := by
  obtain ⟨ur, hurmem, hurid, rp, hrpmem, hrprole, hrppol⟩ := hreach
  obtain ⟨q, hqmem, hqid, hqres, hqop⟩ := hmatch
  have h1 : ur ∈ userRolesFor s uid :=
    List.mem_filter.2 ⟨hurmem, by simp [hurid]⟩
  have h2 : ur.role_id ∈ roleIds s uid :=
    List.mem_map_of_mem (fun x => x.role_id) h1
  have h3 : rp ∈ rolePoliciesFor s (roleIds s uid) := by
    refine List.mem_filter.2 ⟨hrpmem, ?_⟩
    rw [List.elem_iff, hrprole]
    exact h2
  have h4 : rp.policy_id ∈ policyIds s uid :=
    List.mem_map_of_mem (fun x => x.policy_id) h3
  have h5 : pp ∈ policyPermissionsFor (addPolicyPermission s pp)
      (policyIds (addPolicyPermission s pp) uid) := by
    show pp ∈ (s.policy_permissions ++ [pp]).filter
      (fun x => (policyIds s uid).contains x.policy_id)
    refine List.mem_filter.2 ⟨by simp, ?_⟩
    rw [List.elem_iff, ← hrppol]
    exact h4
  have h6 : pp.permission_id ∈ permissionIds (addPolicyPermission s pp) uid :=
    List.mem_map_of_mem (fun x => x.permission_id) h5
  have hafter : check_access (addPolicyPermission s pp) uid rname op =
      ⟨true, "Access granted by user role and policy.", 200⟩ := by
    refine check_access_eq_granted (addPolicyPermission s pp) uid rname op r opE
      hres hop (isEmpty_false_of_mem h1) (isEmpty_false_of_mem h3)
      (isEmpty_false_of_mem h5) ⟨q, hqmem, ?_, hqres, hqop⟩
    rw [hqid]
    exact h6
  exact ⟨fun _ => hafter, fun _ => hafter⟩

/-- C5, witnessed: the demonstration store without the matching link
forbids the request, and adding the matching reachable PolicyPermission
row makes it granted. -/
theorem claim_C5_witness :
    ((check_access demoStoreNoLink "user-1" "project" "read").status = 403 →
      check_access (addPolicyPermission demoStoreNoLink ⟨"pp-1", "pol-1", "perm-1"⟩)
          "user-1" "project" "read" =
        ⟨true, "Access granted by user role and policy.", 200⟩)
    ∧ (check_access demoStoreNoLink "user-1" "project" "read" =
          ⟨true, "Access granted by user role and policy.", 200⟩ →
        check_access (addPolicyPermission demoStoreNoLink ⟨"pp-1", "pol-1", "perm-1"⟩)
            "user-1" "project" "read" =
          ⟨true, "Access granted by user role and policy.", 200⟩) :=
  claim_C5_monotonic_grant demoStoreNoLink ⟨"pp-1", "pol-1", "perm-1"⟩
    "user-1" "project" "read" demoResource OperationEnum.read
    (by decide) (by decide) (by decide) (by decide)

/-- Searching two row-related tables with a predicate the relation
preserves: both searches fail, or both succeed on related rows. -/
theorem listBlind_find?_rel {α : Type} (f : α → α → Bool) (p : α → Bool)
    (hp : ∀ a b, f a b = true → p a = p b) :
    ∀ l1 l2, listBlind f l1 l2 = true →
      (l1.find? p = none ∧ l2.find? p = none) ∨
      (∃ a b, l1.find? p = some a ∧ l2.find? p = some b ∧ f a b = true) := by
  intro l1
  induction l1 with
  | nil =>
      intro l2 h
      cases l2 with
      | nil => exact Or.inl ⟨rfl, rfl⟩
      | cons b bs => exact absurd h (by simp [listBlind])
  | cons a as ih =>
      intro l2 h
      cases l2 with
      | nil => exact absurd h (by simp [listBlind])
      | cons b bs =>
          rw [show listBlind f (a :: as) (b :: bs) = (f a b && listBlind f as bs)
              from rfl, Bool.and_eq_true] at h
          obtain ⟨hab, hrest⟩ := h
          cases hpa : p a with
          | true =>
              refine Or.inr ⟨a, b, List.find?_cons_of_pos as hpa,
                List.find?_cons_of_pos bs ?_, hab⟩
              rw [← hp a b hab]
              exact hpa
          | false =>
              have hpb : p b = false := by rw [← hp a b hab]; exact hpa
              rw [List.find?_cons_of_neg as (by simp [hpa]),
                List.find?_cons_of_neg bs (by simp [hpb])]
              exact ih bs hrest

/-- Filtering and projecting two row-related tables with a predicate and a
projection the relation preserves gives equal results, and the filters are
empty together. -/
theorem listBlind_filter_map_eq {α β : Type} (f : α → α → Bool) (p : α → Bool)
    (g : α → β) (hp : ∀ a b, f a b = true → p a = p b)
    (hg : ∀ a b, f a b = true → g a = g b) :
    ∀ l1 l2, listBlind f l1 l2 = true →
      (l1.filter p).map g = (l2.filter p).map g ∧
        (l1.filter p).isEmpty = (l2.filter p).isEmpty := by
  intro l1
  induction l1 with
  | nil =>
      intro l2 h
      cases l2 with
      | nil => exact ⟨rfl, rfl⟩
      | cons b bs => exact absurd h (by simp [listBlind])
  | cons a as ih =>
      intro l2 h
      cases l2 with
      | nil => exact absurd h (by simp [listBlind])
      | cons b bs =>
          rw [show listBlind f (a :: as) (b :: bs) = (f a b && listBlind f as bs)
              from rfl, Bool.and_eq_true] at h
          obtain ⟨hab, hrest⟩ := h
          obtain ⟨ihm, ihe⟩ := ih bs hrest
          cases hpa : p a with
          | true =>
              have hpb : p b = true := by rw [← hp a b hab]; exact hpa
              simp only [List.filter_cons, hpa, hpb, if_true, List.map_cons,
                List.isEmpty_cons]
              exact ⟨by rw [hg a b hab, ihm], trivial⟩
          | false =>
              have hpb : p b = false := by rw [← hp a b hab]; exact hpa
              simp only [List.filter_cons, hpa, hpb, Bool.false_eq_true, if_false]
              exact ⟨ihm, ihe⟩

/-- urBlind rows agree on id, user_id and role_id. -/
theorem urBlind_fields {a b : GUserRole} (hab : urBlind a b = true) :
    a.id = b.id ∧ a.user_id = b.user_id ∧ a.role_id = b.role_id := by
  unfold urBlind at hab
  simp only [Bool.and_eq_true, beq_iff_eq] at hab
  exact ⟨hab.1.1, hab.1.2, hab.2⟩

/-- resBlind rows agree on id, name and description. -/
theorem resBlind_fields {a b : GResource} (hab : resBlind a b = true) :
    a.id = b.id ∧ a.name = b.name ∧ a.description = b.description := by
  unfold resBlind at hab
  simp only [Bool.and_eq_true, beq_iff_eq] at hab
  exact ⟨hab.1.1, hab.1.2, hab.2⟩

/-- permBlind rows agree on id, operation and resource_id. -/
theorem permBlind_fields {a b : GPermission} (hab : permBlind a b = true) :
    a.id = b.id ∧ a.operation = b.operation ∧ a.resource_id = b.resource_id := by
  unfold permBlind at hab
  simp only [Bool.and_eq_true, beq_iff_eq] at hab
  exact ⟨hab.1.1, hab.1.2, hab.2⟩

/-- C10: the resolver is tenant-blind. No step of `check_access` consults
company_id, so two stores that differ only in the company_id fields of
Resource, Role, Permission and UserRoleAssignment rows produce the same
decision for every input. -/
theorem claim_C10_tenant_blind (s1 s2 : Store) (h : storeBlind s1 s2)
    (uid rname op : String) :
    check_access s1 uid rname op = check_access s2 uid rname op := by
  obtain ⟨hres, hperm, _hpol, hpp, _hroles, hrp, hur⟩ := h
  have hurfm := listBlind_filter_map_eq urBlind (fun x => x.user_id == uid)
    (fun x => x.role_id)
    (fun a b hab => by simp only [(urBlind_fields hab).2.1])
    (fun a b hab => (urBlind_fields hab).2.2)
    s1.user_roles s2.user_roles hur
  have e1 : roleIds s1 uid = roleIds s2 uid := hurfm.1
  have e2 : (userRolesFor s1 uid).isEmpty = (userRolesFor s2 uid).isEmpty := hurfm.2
  have e3 : rolePoliciesFor s1 (roleIds s1 uid) =
      rolePoliciesFor s2 (roleIds s2 uid) := by
    unfold rolePoliciesFor
    rw [hrp, e1]
  have e4 : policyIds s1 uid = policyIds s2 uid := by
    unfold policyIds
    rw [e3]
  have e5 : policyPermissionsFor s1 (policyIds s1 uid) =
      policyPermissionsFor s2 (policyIds s2 uid) := by
    unfold policyPermissionsFor
    rw [hpp, e4]
  have e6 : permissionIds s1 uid = permissionIds s2 uid := by
    unfold permissionIds
    rw [e5]
  unfold check_access
  rcases listBlind_find?_rel resBlind (fun r => r.name == rname)
      (fun a b hab => by simp only [(resBlind_fields hab).2.1])
      s1.resources s2.resources hres with ⟨hn1, hn2⟩ | ⟨a, b, hf1, hf2, hab⟩
  · rw [show findResource s1 rname = none from hn1,
      show findResource s2 rname = none from hn2]
  · rw [show findResource s1 rname = some a from hf1,
      show findResource s2 rname = some b from hf2]
    cases hop : OperationEnum.ofString? op with
    | none => rfl
    | some opE =>
      have haid : a.id = b.id := (resBlind_fields hab).1
      simp only [e2, e3, e5, e6, haid]
      by_cases hc1 : (userRolesFor s2 uid).isEmpty
      · simp [hc1]
      · simp only [Bool.not_eq_true] at hc1
        simp only [hc1, Bool.false_eq_true, if_false]
        by_cases hc2 : (rolePoliciesFor s2 (roleIds s2 uid)).isEmpty
        · simp [hc2]
        · simp only [Bool.not_eq_true] at hc2
          simp only [hc2, Bool.false_eq_true, if_false]
          by_cases hc3 : (policyPermissionsFor s2 (policyIds s2 uid)).isEmpty
          · simp [hc3]
          · simp only [Bool.not_eq_true] at hc3
            simp only [hc3, Bool.false_eq_true, if_false]
            rcases listBlind_find?_rel permBlind
                (fun p => (permissionIds s2 uid).contains p.id &&
                  p.resource_id == b.id && p.operation == opE)
                (fun p q hpq => by
                  obtain ⟨h1, h2, h3⟩ := permBlind_fields hpq
                  simp only [h1, h2, h3])
                s1.permissions s2.permissions hperm with
              ⟨hm1, hm2⟩ | ⟨p1, p2, hm1, hm2, hpq⟩
            · rw [show findMatchingPermission s1 (permissionIds s2 uid) b.id opE =
                  none from hm1,
                show findMatchingPermission s2 (permissionIds s2 uid) b.id opE =
                  none from hm2]
            · rw [show findMatchingPermission s1 (permissionIds s2 uid) b.id opE =
                  some p1 from hm1,
                show findMatchingPermission s2 (permissionIds s2 uid) b.id opE =
                  some p2 from hm2]

/-- C10, witnessed: retagging every company_id of the demonstration store
leaves the decision unchanged. -/
theorem claim_C10_witness :
    check_access demoStore "user-1" "project" "read" =
      check_access demoStoreRetagged "user-1" "project" "read" :=
  claim_C10_tenant_blind demoStore demoStoreRetagged (by decide)
    "user-1" "project" "read"

/-- Membership in the stored names. -/
theorem mem_storedNames_iff (s : Store) (n : String) :
    n ∈ storedNames s ↔ ∃ r ∈ s.resources, r.name = n := by
  unfold storedNames
  rw [List.mem_map]

/-- Membership in the catalog names. -/
theorem mem_catalogNames_iff (catalog : List CatalogEntry) (n : String) :
    n ∈ catalogNames catalog ↔ ∃ c ∈ catalog, c.name = n := by
  unfold catalogNames
  rw [List.mem_map]

/-- The kept rows carry the names present both in the store and in the
catalog. -/
theorem names_keptRows (s : Store) (catalog : List CatalogEntry) (n : String) :
    n ∈ (keptRows s catalog).map (fun r => r.name) ↔
      n ∈ storedNames s ∧ n ∈ catalogNames catalog := by
  constructor
  · intro hn
    obtain ⟨r, hr, hname⟩ := List.mem_map.1 hn
    obtain ⟨hmem, hcont⟩ := List.mem_filter.1 hr
    refine ⟨hname ▸ List.mem_map_of_mem (fun x => x.name) hmem, ?_⟩
    rw [← hname]
    exact List.elem_iff.1 hcont
  · rintro ⟨hst, hcat⟩
    obtain ⟨r, hr, hrn⟩ := List.mem_map.1 hst
    refine List.mem_map.2 ⟨r, List.mem_filter.2 ⟨hr, ?_⟩, hrn⟩
    rw [List.elem_iff, hrn]
    exact hcat

/-- The inserted rows carry the names present in the catalog but absent
from the store. -/
theorem names_insertedRows (s : Store) (catalog : List CatalogEntry)
    (freshId : String → String) (n : String) :
    n ∈ (insertedRows s catalog freshId).map (fun r => r.name) ↔
      n ∈ catalogNames catalog ∧ n ∉ storedNames s := by
  constructor
  · intro hn
    obtain ⟨c, hc, hname⟩ := by
      simpa only [insertedRows, List.map_map, List.mem_map, Function.comp]
        using hn
    obtain ⟨hmem, hcont⟩ := List.mem_filter.1 hc
    refine ⟨hname ▸ List.mem_map_of_mem (fun x => x.name) hmem, ?_⟩
    rw [← hname]
    intro habs
    rw [Bool.not_eq_true', ← Bool.not_eq_true] at hcont
    exact hcont (List.elem_iff.2 habs)
  · rintro ⟨hcat, hst⟩
    obtain ⟨c, hc, hcn⟩ := List.mem_map.1 hcat
    have hfilter : (!(storedNames s).contains c.name) = true := by
      rw [Bool.not_eq_true', Bool.eq_false_iff]
      intro hcontains
      exact hst (hcn ▸ List.elem_iff.1 hcontains)
    exact by
      simpa only [insertedRows, List.map_map, List.mem_map, Function.comp]
        using ⟨c, List.mem_filter.2 ⟨hc, hfilter⟩, hcn⟩

/-- After reconciliation the stored resource names are exactly the catalog
names. -/
theorem reconcile_names (s : Store) (catalog : List CatalogEntry)
    (freshId : String → String) (n : String) :
    n ∈ (reconcile s catalog freshId).1.resources.map (fun r => r.name) ↔
      n ∈ catalogNames catalog := by
  have hsplit : (reconcile s catalog freshId).1.resources =
      keptRows s catalog ++ insertedRows s catalog freshId := rfl
  rw [hsplit, List.map_append, List.mem_append, names_keptRows,
    names_insertedRows]
  constructor
  · rintro (⟨_, hcat⟩ | ⟨hcat, _⟩) <;> exact hcat
  · intro hcat
    by_cases hst : n ∈ storedNames s
    · exact Or.inl ⟨hst, hcat⟩
    · exact Or.inr ⟨hcat, hst⟩

/-- C3: reconciliation converges — after one call the stored resource name
set equals exactly the catalog name set, whatever the prior store held —
and is idempotent: a second call with the same catalog inserts nothing and
deletes nothing. -/
theorem claim_C3_reconcile_converges_and_idempotent (s : Store)
    (catalog : List CatalogEntry) (freshId freshId2 : String → String) :
    (∀ n, n ∈ (reconcile s catalog freshId).1.resources.map (fun r => r.name) ↔
        n ∈ catalogNames catalog)
    ∧ (reconcile (reconcile s catalog freshId).1 catalog freshId2).2.1 = []
    ∧ (reconcile (reconcile s catalog freshId).1 catalog freshId2).2.2 = [] := by
  refine ⟨fun n => reconcile_names s catalog freshId n, ?_, ?_⟩
  · show insertedRows (reconcile s catalog freshId).1 catalog freshId2 = []
    unfold insertedRows
    rw [List.map_eq_nil_iff, List.filter_eq_nil_iff]
    intro c hc
    have hmem : c.name ∈ storedNames (reconcile s catalog freshId).1 :=
      (reconcile_names s catalog freshId c.name).2
        (List.mem_map_of_mem (fun x => x.name) hc)
    simp only [Bool.not_eq_true, Bool.not_eq_true', Bool.not_eq_false,
      List.elem_iff]
    exact hmem
  · show deletedRows (reconcile s catalog freshId).1 catalog = []
    unfold deletedRows
    rw [List.filter_eq_nil_iff]
    intro r hr
    have hmem : r.name ∈ catalogNames catalog :=
      (reconcile_names s catalog freshId r.name).1
        (List.mem_map_of_mem (fun x => x.name) hr)
    simp only [Bool.not_eq_true, Bool.not_eq_true', Bool.not_eq_false,
      List.elem_iff]
    exact hmem

/-- The pairwise form of the Permission invariant bounds every
(resource_id, operation) count by one. -/
theorem permPairUnique_countP_le_one {perms : List GPermission}
    (h : permPairUnique perms) (rid : String) (op : OperationEnum) :
    perms.countP (fun p => p.resource_id == rid && p.operation == op) ≤ 1 := by
  induction perms with
  | nil => exact Nat.zero_le 1
  | cons p ps ih =>
      unfold permPairUnique at h
      rw [List.pairwise_cons] at h
      obtain ⟨hrel, hpw⟩ := h
      rw [List.countP_cons]
      cases hp : (p.resource_id == rid && p.operation == op) with
      | false => simpa using ih hpw
      | true =>
          simp only [if_true]
          have hzero : ps.countP (fun q => q.resource_id == rid && q.operation == op) = 0 := by
            rw [List.countP_eq_zero]
            intro q hq hqp
            simp only [Bool.and_eq_true, beq_iff_eq] at hp hqp
            rcases hrel q hq with hne | hne
            · exact hne (hp.1.trans hqp.1.symm)
            · exact hne (hp.2.trans hqp.2.symm)
          rw [hzero]

/-- Each operation occurs exactly once in the enumeration. -/
theorem countP_all_ops (op : OperationEnum) :
    OperationEnum.all.countP (fun o => o == op) = 1 := by
  cases op <;> decide

/-- Counting a (resource id, operation) pair over the seeding iteration
space counts the occurrences of that resource id. -/
theorem countP_resourceOpPairs (resources : List GResource) (rid : String)
    (op : OperationEnum) :
    (resourceOpPairs resources).countP (fun pr => pr.1 == rid && pr.2 == op) =
      resources.countP (fun r => r.id == rid) := by
  induction resources with
  | nil => rfl
  | cons r rs ih =>
      show ((OperationEnum.all.map (fun o => (r.id, o))) ++
          resourceOpPairs rs).countP (fun pr => pr.1 == rid && pr.2 == op) = _
      rw [List.countP_append, List.countP_map, List.countP_cons, ih]
      cases hid : r.id == rid with
      | true =>
          simp only [if_true]
          have : OperationEnum.all.countP
              ((fun pr : String × OperationEnum => pr.1 == rid && pr.2 == op) ∘
                (fun o => (r.id, o))) =
              OperationEnum.all.countP (fun o => o == op) := by
            apply List.countP_congr
            intro o _
            simp [Function.comp, hid]
          rw [this, countP_all_ops]
          exact Nat.add_comm 1 _
      | false =>
          simp only [Bool.false_eq_true, if_false, Nat.add_zero]
          have : OperationEnum.all.countP
              ((fun pr : String × OperationEnum => pr.1 == rid && pr.2 == op) ∘
                (fun o => (r.id, o))) = 0 := by
            rw [List.countP_eq_zero]
            intro o _
            simp [Function.comp, hid]
          rw [this, Nat.zero_add]

/-- In a table whose ids are all distinct, the id of a member row occurs
exactly once. -/
theorem countP_id_eq_one {resources : List GResource}
    (hids : (resources.map (fun r => r.id)).Nodup) {r : GResource}
    (hr : r ∈ resources) :
    resources.countP (fun x => x.id == r.id) = 1 := by
  induction resources with
  | nil => cases hr
  | cons a as ih =>
      rw [List.map_cons, List.nodup_cons] at hids
      obtain ⟨hnotin, hnd⟩ := hids
      rw [List.countP_cons]
      rcases List.mem_cons.1 hr with heq | hmem
      · subst heq
        simp only [beq_self_eq_true, if_true]
        have hzero : as.countP (fun x => x.id == r.id) = 0 := by
          rw [List.countP_eq_zero]
          intro q hq hqp
          rw [beq_iff_eq] at hqp
          exact hnotin (hqp ▸ List.mem_map_of_mem (fun x => x.id) hq)
        rw [hzero]
      · have hne : (a.id == r.id) = false := by
          rw [Bool.eq_false_iff]
          intro hcontra
          rw [beq_iff_eq] at hcontra
          exact hnotin (hcontra ▸ List.mem_map_of_mem (fun x => x.id) hmem)
        rw [hne]
        simpa using ih hnd hmem

/-- After seeding, every (resource, operation) pair over the stored
resources has exactly one Permission row, provided the prior store
satisfied the §3 uniqueness invariant and the resource ids are distinct. -/
theorem ensure_superadmin_perm_count (s : Store) (fr : String)
    (fp : String → OperationEnum → String)
    (hperm : permPairUnique s.permissions)
    (hids : (s.resources.map (fun r => r.id)).Nodup) :
    ∀ r ∈ s.resources, ∀ op,
      (ensure_superadmin s fr fp).1.permissions.countP
        (fun p => p.resource_id == r.id && p.operation == op) = 1 := by
  intro r hr op
  have hsplit : (ensure_superadmin s fr fp).1.permissions =
      s.permissions ++ (missingPairs s).map
        (fun pr => (⟨fp pr.1 pr.2, "", pr.2, pr.1⟩ : GPermission)) := rfl
  rw [hsplit, List.countP_append, List.countP_map]
  have hcomp :
      ((fun p : GPermission => p.resource_id == r.id && p.operation == op) ∘
        (fun pr : String × OperationEnum =>
          (⟨fp pr.1 pr.2, "", pr.2, pr.1⟩ : GPermission))) =
      (fun pr : String × OperationEnum => pr.1 == r.id && pr.2 == op) := rfl
  rw [hcomp]
  cases hmatch : hasPermFor s.permissions r.id op with
  | true =>
      have hpos : 0 < s.permissions.countP
          (fun p => p.resource_id == r.id && p.operation == op) := by
        rw [List.countP_pos_iff]
        exact List.any_eq_true.1 hmatch
      have hold : s.permissions.countP
          (fun p => p.resource_id == r.id && p.operation == op) = 1 :=
        Nat.le_antisymm (permPairUnique_countP_le_one hperm r.id op) hpos
      have hnew : (missingPairs s).countP
          (fun pr => pr.1 == r.id && pr.2 == op) = 0 := by
        rw [List.countP_eq_zero]
        intro pr hpr hprp
        have hfilter := (List.mem_filter.1 hpr).2
        simp only [Bool.and_eq_true, beq_iff_eq] at hprp
        rw [hprp.1, hprp.2, hmatch] at hfilter
        exact absurd hfilter (by decide)
      rw [hold, hnew]
  | false =>
      have hold : s.permissions.countP
          (fun p => p.resource_id == r.id && p.operation == op) = 0 := by
        rw [List.countP_eq_zero]
        intro p hp hpp
        have hany : s.permissions.any
            (fun p => p.resource_id == r.id && p.operation == op) = true :=
          List.any_eq_true.2 ⟨p, hp, hpp⟩
        rw [show s.permissions.any
            (fun p => p.resource_id == r.id && p.operation == op) =
            hasPermFor s.permissions r.id op from rfl, hmatch] at hany
        exact absurd hany (by decide)
      have hnew : (missingPairs s).countP
          (fun pr => pr.1 == r.id && pr.2 == op) = 1 := by
        unfold missingPairs
        rw [List.countP_filter]
        have hcongr : (resourceOpPairs s.resources).countP
            (fun pr => (pr.1 == r.id && pr.2 == op) &&
              !(hasPermFor s.permissions pr.1 pr.2)) =
            (resourceOpPairs s.resources).countP
              (fun pr => pr.1 == r.id && pr.2 == op) := by
          apply List.countP_congr
          intro pr _
          cases hpr : (pr.1 == r.id && pr.2 == op) with
          | false => rw [Bool.false_and]
          | true =>
              have h12 := hpr
              simp only [Bool.and_eq_true, beq_iff_eq] at h12
              rw [Bool.true_and, h12.1, h12.2, hmatch]
              rfl
        rw [hcongr, countP_resourceOpPairs, countP_id_eq_one hids hr]
      rw [hold, hnew]

/-- C4: seeding is idempotent. Under the store invariants (at most one
role named superadmin, at most one Permission per (resource_id, operation)
pair, distinct resource ids), one call leaves exactly one Role named
"superadmin" — created with a null company_id when absent — and exactly
one Permission row for every (resource, operation) pair over the stored
resources and the Operation enumeration; a second call creates no Role row
and no Permission row. -/
theorem claim_C4_seeding_idempotent (s : Store) (fr fr2 : String)
    (fp fp2 : String → OperationEnum → String)
    (hrole : s.roles.countP (fun r => r.name == "superadmin") ≤ 1)
    (hperm : permPairUnique s.permissions)
    (hids : (s.resources.map (fun r => r.id)).Nodup) :
    ((ensure_superadmin s fr fp).1.roles.countP
        (fun r => r.name == "superadmin") = 1)
    ∧ (s.roles.any (fun r => r.name == "superadmin") = false →
        superadminRole fr ∈ (ensure_superadmin s fr fp).1.roles)
    ∧ (∀ r ∈ s.resources, ∀ op,
        (ensure_superadmin s fr fp).1.permissions.countP
          (fun p => p.resource_id == r.id && p.operation == op) = 1)
    ∧ (ensure_superadmin (ensure_superadmin s fr fp).1 fr2 fp2).2.1 = []
    ∧ (ensure_superadmin (ensure_superadmin s fr fp).1 fr2 fp2).2.2 = [] := by
  have hpermcount := ensure_superadmin_perm_count s fr fp hperm hids
  have hrolesplit : (ensure_superadmin s fr fp).1.roles =
      s.roles ++ (if s.roles.any (fun r => r.name == "superadmin") then []
        else [superadminRole fr]) := rfl
  have hroles1 : (ensure_superadmin s fr fp).1.roles.countP
      (fun r => r.name == "superadmin") = 1 := by
    rw [hrolesplit, List.countP_append]
    cases hany : s.roles.any (fun r => r.name == "superadmin") with
    | true =>
        have hpos : 0 < s.roles.countP (fun r => r.name == "superadmin") := by
          rw [List.countP_pos_iff]
          exact List.any_eq_true.1 hany
        simp only [if_true, List.countP_nil, Nat.add_zero]
        exact Nat.le_antisymm hrole hpos
    | false =>
        have hzero : s.roles.countP (fun r => r.name == "superadmin") = 0 := by
          rw [List.countP_eq_zero]
          intro a ha hp
          have : s.roles.any (fun r => r.name == "superadmin") = true :=
            List.any_eq_true.2 ⟨a, ha, hp⟩
          rw [hany] at this
          exact absurd this (by decide)
        simp only [Bool.false_eq_true, if_false, hzero, Nat.zero_add]
        rfl
  refine ⟨hroles1, ?_, hpermcount, ?_, ?_⟩
  · intro hany
    rw [hrolesplit, hany]
    simp
  · have hany1 : (ensure_superadmin s fr fp).1.roles.any
        (fun r => r.name == "superadmin") = true := by
      rw [List.any_eq_true]
      exact List.countP_pos_iff.1 (by rw [hroles1]; exact Nat.zero_lt_one)
    show (if (ensure_superadmin s fr fp).1.roles.any
        (fun r => r.name == "superadmin") then []
      else [superadminRole fr2]) = []
    rw [hany1]
    rfl
  · show ((missingPairs (ensure_superadmin s fr fp).1).map
      (fun pr =>
        (⟨fp2 pr.1 pr.2, "", pr.2, pr.1⟩ : GPermission))) = []
    rw [List.map_eq_nil_iff]
    unfold missingPairs
    rw [List.filter_eq_nil_iff]
    intro pr hpr
    have hpr' : pr ∈ resourceOpPairs s.resources := hpr
    obtain ⟨r, hr, hpr2⟩ := List.mem_flatMap.1 hpr'
    obtain ⟨op', _, hpreq⟩ := List.mem_map.1 hpr2
    have hhas : hasPermFor (ensure_superadmin s fr fp).1.permissions r.id op' = true := by
      rw [show hasPermFor (ensure_superadmin s fr fp).1.permissions r.id op' =
        (ensure_superadmin s fr fp).1.permissions.any
          (fun p => p.resource_id == r.id && p.operation == op') from rfl,
        List.any_eq_true]
      exact List.countP_pos_iff.1
        (by rw [hpermcount r hr op']; exact Nat.zero_lt_one)
    rw [← hpreq]
    simp only [hhas, Bool.not_true]
    exact fun h => absurd h (by decide)

/-- C4, witnessed at the demonstration store. -/
theorem claim_C4_witness :
    ((ensure_superadmin demoStore "sa-role" (fun rid _ => rid)).1.roles.countP
        (fun r => r.name == "superadmin") = 1)
    ∧ (demoStore.roles.any (fun r => r.name == "superadmin") = false →
        superadminRole "sa-role" ∈
          (ensure_superadmin demoStore "sa-role" (fun rid _ => rid)).1.roles)
    ∧ (∀ r ∈ demoStore.resources, ∀ op,
        (ensure_superadmin demoStore "sa-role"
            (fun rid _ => rid)).1.permissions.countP
          (fun p => p.resource_id == r.id && p.operation == op) = 1)
    ∧ (ensure_superadmin
        (ensure_superadmin demoStore "sa-role" (fun rid _ => rid)).1
        "sa-role-2" (fun rid _ => rid ++ "-x")).2.1 = []
    ∧ (ensure_superadmin
        (ensure_superadmin demoStore "sa-role" (fun rid _ => rid)).1
        "sa-role-2" (fun rid _ => rid ++ "-x")).2.2 = [] :=
  claim_C4_seeding_idempotent demoStore "sa-role" "sa-role-2"
    (fun rid _ => rid) (fun rid _ => rid ++ "-x")
    (by decide) (by unfold permPairUnique; decide) (by decide)

/-- C7 fails on the code: deleting resource res-1 from the demonstration
store succeeds with 204 and removes the Resource row, yet the Permission
row perm-1 whose resource_id references the deleted resource remains in
the store — the deletion does not cascade. -/
theorem claim_C7_delete_leaves_orphan_permission :
    (resourceResourceDelete demoStore "res-1").2 = 204
    ∧ (∀ r ∈ (resourceResourceDelete demoStore "res-1").1.resources,
        r.id ≠ "res-1")
    ∧ (⟨"perm-1", "co-1", .read, "res-1"⟩ : GPermission) ∈
        (resourceResourceDelete demoStore "res-1").1.permissions :=
  ⟨by decide, by decide, by decide⟩

/-- C8 fails as stated: the store constraint covers
(company_id, resource_id, operation), not (resource_id, operation), so
administrative creation accepts a second Permission with the same resource
and operation under another company, reaching a state with two distinct
rows that agree on resource_id and operation. -/
theorem claim_C8_counterexample :
    permissionPost [⟨"perm-1", "co-1", .read, "res-1"⟩]
        ⟨"perm-2", "co-2", .read, "res-1"⟩ =
      ([⟨"perm-1", "co-1", .read, "res-1"⟩, ⟨"perm-2", "co-2", .read, "res-1"⟩],
        201)
    ∧ ((⟨"perm-1", "co-1", .read, "res-1"⟩ : GPermission) ≠
        ⟨"perm-2", "co-2", .read, "res-1"⟩)
    ∧ ((⟨"perm-1", "co-1", .read, "res-1"⟩ : GPermission).resource_id =
        (⟨"perm-2", "co-2", .read, "res-1"⟩ : GPermission).resource_id)
    ∧ ((⟨"perm-1", "co-1", .read, "res-1"⟩ : GPermission).operation =
        (⟨"perm-2", "co-2", .read, "res-1"⟩ : GPermission).operation) :=
  ⟨by decide, by decide, by decide, by decide⟩

/-- C8 amended: at most one Permission row per (company_id, resource_id,
operation) triple — administrative creation guarded by the unique
constraint preserves this invariant (it does not hold for the
(resource_id, operation) pair alone). -/
theorem claim_C8_amended_triple_unique (perms : List GPermission)
    (p : GPermission) (h : permTripleUnique perms) :
    permTripleUnique (permissionPost perms p).1 := by
  unfold permissionPost
  cases hc : permissionInsertConflict perms p with
  | true => exact h
  | false =>
      simp only [Bool.false_eq_true, if_false]
      unfold permTripleUnique at h ⊢
      rw [List.pairwise_append]
      refine ⟨h, List.pairwise_singleton _ _, ?_⟩
      intro q hq p' hp'
      rw [List.mem_singleton] at hp'
      by_contra hno
      push_neg at hno
      obtain ⟨h1, h2, h3⟩ := hno
      have hconf : permissionInsertConflict perms p = true := by
        unfold permissionInsertConflict
        rw [List.any_eq_true]
        refine ⟨q, hq, ?_⟩
        rw [hp'] at h1 h2 h3
        simp [h1, h2, h3]
      rw [hc] at hconf
      exact absurd hconf (by decide)

/-- C8 amended, witnessed at the two-company pair of rows. -/
theorem claim_C8_witness :
    permTripleUnique (permissionPost [⟨"perm-1", "co-1", .read, "res-1"⟩]
      ⟨"perm-2", "co-2", .read, "res-1"⟩).1 :=
  claim_C8_amended_triple_unique [⟨"perm-1", "co-1", .read, "res-1"⟩]
    ⟨"perm-2", "co-2", .read, "res-1"⟩ (by unfold permTripleUnique; decide)
